import Mathlib

/-!
Shallow embedding of the image-catalog / deferred-promise-image subsystem of the
repository (tools/DDLPromiseImageHelper.cpp), of the local-matrix image-filter
factory (src/core/SkLocalMatrixImageFilter.cpp) and of the GL semaphore wrapper
(src/gpu/gl/GrGLSemaphore.cpp).

Embedding conventions:
- machine ints are Nat/Int; C++ sentinel returns (-1) are kept as Int values;
- SkASSERT checks that validate data crossing the subsystem boundary on the
  reinflate/upload paths (the substitution-token bounds check, YUV index
  validity, YUV texture validity) are embedded as fatal guards (Option none),
  matching the fatal-contract-violation reading; SkASSERT checks restating
  internal invariants of the registration path are kept as comments;
- heap allocation of fresh SkImage objects is modelled by a counter
  (nextImageId): each minted image carries the object id it was allocated with,
  which models C++ object identity;
- reference-counted sk_sp sharing of PromiseImageCallbackContext is modelled by
  a context store (a list indexed by context id) threaded through the state,
  with an explicit refCount field per context.
-/

namespace Skia

/-! Basic pixel-geometry types. -/

/-- SkColorType constants used by the sampled code (values are stand-ins for the
C++ enumerators). -/
def kUnknown_SkColorType : Nat := 0

def kAlpha_8_SkColorType : Nat := 1

def kRGBA_8888_SkColorType : Nat := 4

/-- SkAlphaType constant used by the YUV plane capture. -/
def kUnpremul_SkAlphaType : Nat := 2

/-- SkImageInfo: width, height, color type, alpha type and a color-space
reference (modelled as a Nat id, 0 meaning null). -/
structure SkImageInfo where
  width : Nat
  height : Nat
  colorType : Nat
  alphaType : Nat
  colorSpace : Nat
deriving DecidableEq, Repr

/-- Modelled from the spec: bytes per pixel of a color type (SkImageInfo
geometry, header not under src/). Only the color types the sampled code uses
are given distinct sizes. -/
def bytesPerPixel (colorType : Nat) : Nat :=
  if colorType = kUnknown_SkColorType then 0
  else if colorType = kAlpha_8_SkColorType then 1
  else 4

/-- Modelled from the spec: the minimal row stride of a tightly allocated
bitmap (SkImageInfo::minRowBytes, header not under src/). -/
def SkImageInfo.minRowBytes (info : SkImageInfo) : Nat :=
  info.width * bytesPerPixel info.colorType

/-- SkBitmap: a descriptor plus a materialized pixel buffer. allocPixels gives
the tight row stride; setImmutable sets the flag. -/
structure SkBitmap where
  info : SkImageInfo
  pixels : List Nat
  rowBytes : Nat
  fIsImmutable : Bool
deriving DecidableEq, Repr

/-- Default-constructed SkBitmap: empty and mutable. -/
def dfltBitmap : SkBitmap := ⟨⟨0, 0, 0, 0, 0⟩, [], 0, false⟩

/-! The SkLocalMatrixImageFilter factory (src/core/SkLocalMatrixImageFilter.cpp). -/

/-- SkMatrix: a 3x3 matrix in row-major order. Scalars are modelled as exact
rationals. -/
structure SkMatrix where
  scaleX : Rat
  skewX : Rat
  transX : Rat
  skewY : Rat
  scaleY : Rat
  transY : Rat
  persp0 : Rat
  persp1 : Rat
  persp2 : Rat
deriving DecidableEq, Repr

/-- SkMatrix type-mask bit for a translation component. -/
def kTranslate_Mask : Nat := 1

/-- SkMatrix type-mask bit for a scale component. -/
def kScale_Mask : Nat := 2

/-- SkMatrix type-mask bit for an affine (skew/rotation) component. -/
def kAffine_Mask : Nat := 4

/-- SkMatrix type-mask bit for a perspective component. -/
def kPerspective_Mask : Nat := 8

/-- Modelled from the spec: SkMatrix::getType (SkMatrix is not under src/).
A perspective matrix reports all bits set, as in Skia; otherwise the
translate/scale/affine bits are set from the corresponding entries. -/
def SkMatrix.getType (m : SkMatrix) : Nat :=
  if m.persp0 ≠ 0 ∨ m.persp1 ≠ 0 ∨ m.persp2 ≠ 1 then
    kTranslate_Mask ||| kScale_Mask ||| kAffine_Mask ||| kPerspective_Mask
  else
    (if m.skewX ≠ 0 ∨ m.skewY ≠ 0 then kAffine_Mask else 0) |||
    (if m.scaleX ≠ 1 ∨ m.scaleY ≠ 1 then kScale_Mask else 0) |||
    (if m.transX ≠ 0 ∨ m.transY ≠ 0 then kTranslate_Mask else 0)

/-- Modelled from the spec: SkMatrix::isIdentity, true exactly when the type
mask is empty. -/
def SkMatrix.isIdentity (m : SkMatrix) : Bool :=
  m.getType = 0

/-- An image-filter tree: opaque leaf filters plus the local-matrix wrapper
node built by SkLocalMatrixImageFilter. -/
inductive SkImageFilter where
  | leaf (id : Nat)
  | localMatrix (localM : SkMatrix) (input : SkImageFilter)
deriving DecidableEq, Repr

/-- SkLocalMatrixImageFilter::Make (src/core/SkLocalMatrixImageFilter.cpp lines
15-27): reject a null input, reject a matrix with an affine or perspective
component, return the input unchanged for the identity matrix, otherwise wrap. -/
def SkLocalMatrixImageFilter.Make (localM : SkMatrix) (input : Option SkImageFilter) :
    Option SkImageFilter :=
  match input with
  | none => none
  | some f =>
    if localM.getType &&& (kAffine_Mask ||| kPerspective_Mask) ≠ 0 then
      none
    else if localM.isIdentity then
      some f
    else
      some (SkImageFilter.localMatrix localM f)

/-! The GrGLSemaphore wrapper (src/gpu/gl/GrGLSemaphore.cpp). -/

/-- GrGLSemaphore: a GLsync handle (0 meaning null) plus the ownership flag set
at construction. -/
structure GrGLSemaphore where
  fSync : Nat
  fIsOwned : Bool
deriving DecidableEq, Repr

/-- GrGLSemaphore::onRelease (lines 17-23): delete the sync object when the
handle is non-null and the semaphore owns it, then null the handle. The first
component records the handle passed to deleteSync, if any. -/
def GrGLSemaphore.onRelease (s : GrGLSemaphore) : Option Nat × GrGLSemaphore :=
  (if s.fSync ≠ 0 ∧ s.fIsOwned = true then some s.fSync else none,
   { s with fSync := 0 })

/-- GrGLSemaphore::onAbandon (lines 25-28): null the handle without deleting
the sync object. -/
def GrGLSemaphore.onAbandon (s : GrGLSemaphore) : Option Nat × GrGLSemaphore :=
  (none, { s with fSync := 0 })

/-! The image catalog (tools/DDLPromiseImageHelper.cpp): data model. -/

/-- A captured YUV plane decomposition, as produced by the external
SkImage_Base::getPlanes collaborator: per physical plane a size, a row stride
and a raw sample buffer (4 slots each), plus the 4-entry Y/U/V/A plane index
mapping (fIndex, -1 meaning absent) and the YUV color-space tag. -/
structure SkYUVData where
  sizes : List (Nat × Nat)
  widthBytes : List Nat
  yuvaIndices : List Int
  yuvColorSpace : Nat
  planes : List (List Nat)
deriving DecidableEq, Repr

/-- An SkImage as the registration path sees it: the stable per-process
uniqueID, the overall descriptor fields, the optional YUV decomposition
reported by getPlanes, and the pixel buffer that makeRasterImage/readPixels
would yield (none when pixel materialization fails, e.g. an undecodable
source). -/
structure SkImage where
  uniqueID : Nat
  width : Nat
  height : Nat
  colorType : Nat
  alphaType : Nat
  colorSpace : Nat
  yuvPlanesData : Option SkYUVData
  rasterPixels : Option (List Nat)
deriving DecidableEq, Repr

/-- SkPixmap data captured for one YUV plane by addYUVPlane: descriptor, raw
sample buffer and row stride. -/
structure SkPixmapData where
  info : SkImageInfo
  addr : List Nat
  rowBytes : Nat
deriving DecidableEq, Repr

/-- Default SkPixmap used when a plane slot is read without having been set. -/
def dfltPixmap : SkPixmapData := ⟨⟨0, 0, 0, 0, 0⟩, [], 0⟩

/-- PromiseImageInfo, the per-image catalog entry: permanent index, the
original image's uniqueID, the overall descriptor, the optional YUV metadata
(index mapping and color space, set by setYUVData), the 4 YUV plane slots, the
optional normal bitmap, and the 4 callback-context slots (context-store ids)
filled in by uploadAllToGPU. -/
structure PromiseImageInfo where
  index : Nat
  originalUniqueID : Nat
  overallInfo : SkImageInfo
  yuvMeta : Option (List Int × Nat)
  yuvPlanes : List (Option SkPixmapData)
  normalBitmap : Option SkBitmap
  callbackContexts : List (Option Nat)
deriving DecidableEq, Repr

/-- Default PromiseImageInfo used for out-of-range reads. -/
def dfltPIE : PromiseImageInfo :=
  ⟨0, 0, ⟨0, 0, 0, 0, 0⟩, none, List.replicate 4 none, none, List.replicate 4 none⟩

/-- PromiseImageInfo::isYUV: true once setYUVData has run. -/
def PromiseImageInfo.isYUV (e : PromiseImageInfo) : Bool :=
  e.yuvMeta.isSome

/-- PromiseImageInfo::yuvPixmap j: the captured pixmap of physical plane j. -/
def PromiseImageInfo.yuvPixmap (e : PromiseImageInfo) (j : Nat) : SkPixmapData :=
  (e.yuvPlanes.getD j none).getD dfltPixmap

/-! Registration (deflate side). -/

/-- Overall descriptor captured at registration: SkImageInfo::Make(width,
height, colorType, alphaType, refColorSpace()) at
tools/DDLPromiseImageHelper.cpp lines 214-216. -/
def mkOverallInfo (img : SkImage) : SkImageInfo :=
  ⟨img.width, img.height, img.colorType, img.alphaType, img.colorSpace⟩

/-- One step of the color-type determination loop of addImage (lines 236-247):
a plane slot referenced once is A8, referenced again it becomes RGBA8888; a
negative index is skipped. -/
def updateColorTypes (cts : List Nat) (texIdx : Int) : List Nat :=
  if 0 ≤ texIdx then
    if cts.getD texIdx.toNat 0 = kUnknown_SkColorType then
      cts.set texIdx.toNat kAlpha_8_SkColorType
    else
      cts.set texIdx.toNat kRGBA_8888_SkColorType
  else
    cts

/-- The color types addImage derives from the YUVA index mapping (lines
230-247). -/
def yuvColorTypes (yuvaIndices : List Int) : List Nat :=
  yuvaIndices.foldl updateColorTypes
    [kUnknown_SkColorType, kUnknown_SkColorType, kUnknown_SkColorType, kUnknown_SkColorType]

/-- The plane capture loop of addImage (lines 249-260): empty plane sizes are
skipped, each non-empty plane gets a descriptor with the derived color type,
unpremul alpha and no color space, the raw buffer and the row stride. -/
def buildYUVPlanes (y : SkYUVData) : List (Option SkPixmapData) :=
  let cts := yuvColorTypes y.yuvaIndices
  (List.range 4).map fun i =>
    let sz := y.sizes.getD i (0, 0)
    if sz.1 = 0 ∨ sz.2 = 0 then none
    else
      some ⟨⟨sz.1, sz.2, cts.getD i kUnknown_SkColorType, kUnpremul_SkAlphaType, 0⟩,
            y.planes.getD i [], y.widthBytes.getD i 0⟩

/-- DDLPromiseImageHelper::addImage (lines 211-277). The new entry is appended
(emplace_back) before the pixel data is captured; on a YUV image the plane
decomposition is stored, otherwise the materialized raster pixels are stored
as an immutable bitmap. When pixel materialization fails (readPixels returns
false) the function returns -1 — with the freshly appended entry still in the
catalog. -/
def addImage (cat : List PromiseImageInfo) (img : SkImage) :
    List PromiseImageInfo × Int :=
  let overallII := mkOverallInfo img
  let base : PromiseImageInfo :=
    ⟨cat.length, img.uniqueID, overallII, none, List.replicate 4 none, none,
     List.replicate 4 none⟩
  match img.yuvPlanesData with
  | some y =>
    let e := { base with
                 yuvMeta := some (y.yuvaIndices, y.yuvColorSpace),
                 yuvPlanes := buildYUVPlanes y }
    (cat ++ [e], (cat.length : Int))
  | none =>
    match img.rasterPixels with
    | none => (cat ++ [base], -1)
    | some px =>
      let e := { base with
                   normalBitmap := some ⟨overallII, px, overallII.minRowBytes, true⟩ }
      (cat ++ [e], (cat.length : Int))

/-- Linear scan of DDLPromiseImageHelper::findImage with an explicit running
position. -/
def findImageAux : List PromiseImageInfo → Nat → Nat → Int
  | [], _, _ => -1
  | e :: rest, uid, i =>
    if e.originalUniqueID = uid then (i : Int) else findImageAux rest uid (i + 1)

/-- DDLPromiseImageHelper::findImage (lines 200-209): first entry whose
originalUniqueID matches the image's uniqueID, or -1. -/
def findImage (cat : List PromiseImageInfo) (img : SkImage) : Int :=
  findImageAux cat img.uniqueID 0

/-- DDLPromiseImageHelper::findOrDefineImage (lines 279-289): return the
pre-existing index on a dedup hit, otherwise register the image. -/
def findOrDefineImage (cat : List PromiseImageInfo) (img : SkImage) :
    List PromiseImageInfo × Int :=
  let preExistingID := findImage cat img
  if 0 ≤ preExistingID then (cat, preExistingID) else addImage cat img

/-- Modelled from the spec: DDLPromiseImageHelper::isValidID (declared in the
header, which is not under src/) is the bounds check 0 <= id < count. -/
def isValidIDAt (count : Nat) (id : Int) : Bool :=
  0 ≤ id ∧ id < (count : Int)

/-- Sequential registration of a list of images (the deflate pass as a whole). -/
def registerAll (cat : List PromiseImageInfo) (imgs : List SkImage) :
    List PromiseImageInfo :=
  imgs.foldl (fun c i => (findOrDefineImage c i).1) cat

/-- Registration of the same image N times, collecting the returned indices. -/
def registerSame : List PromiseImageInfo → SkImage → Nat → List PromiseImageInfo × List Int
  | cat, _, 0 => (cat, [])
  | cat, img, n + 1 =>
    let r := findOrDefineImage cat img
    let rest := registerSame r.1 img n
    (rest.1, r.2 :: rest.2)

/-! Upload (uploadAllToGPU) and reinflation (reinflateSKP / PromiseImageCreator). -/

/-- PromiseImageCallbackContext: the backend texture handle realized at upload
(none when texture creation failed, mirroring GrBackendTexture::isValid) and
the shared reference count (the sk_sp count; a freshly created context is held
once, by the catalog entry). -/
structure PromiseImageCallbackContext where
  backendTexture : Option Nat
  refCount : Nat
deriving DecidableEq, Repr

/-- Default context used for out-of-range context-store reads. -/
def dfltCtx : PromiseImageCallbackContext := ⟨none, 0⟩

/-- A texture-creation request, carrying exactly the arguments the sampled code
passes to GrGpu::createTestingOnlyBackendTexture (pixel address, width, height,
color type, row stride; mip mapping is always off). -/
structure TexRequest where
  pixels : List Nat
  width : Nat
  height : Nat
  colorType : Nat
  rowBytes : Nat
deriving DecidableEq, Repr

/-- The GPU backend capability: texture creation that may fail. -/
def Gpu : Type := TexRequest → Option Nat

/-- Modelled from the spec: the number of planes of a YUVA index mapping is the
count of valid (non-sentinel) indices, bounded by 4 (SkYUVAIndex is not under
src/). -/
def numValidPlanes (yuvaIndices : List Int) : Nat :=
  (yuvaIndices.filter fun i => 0 ≤ i).length

/-- Modelled from the spec: SkYUVAIndex::AreValidIndices — the mapping has its
4 slots, references at least one and at most 4 physical planes, and every
valid index is below 4. -/
def areValidIndices (yuvaIndices : List Int) : Bool :=
  yuvaIndices.length = 4 ∧ 1 ≤ numValidPlanes yuvaIndices ∧
    ∀ i ∈ yuvaIndices, i < 4

/-- The whole helper state once upload has run: the catalog entries, the shared
context store (context id to context) and the allocation counter for fresh
SkImage objects. -/
structure HelperState where
  fImageInfo : List PromiseImageInfo
  ctxStore : List PromiseImageCallbackContext
  nextImageId : Nat
deriving DecidableEq, Repr

/-- Upload of the planes 0..n-1 of a YUV entry (lines 63-80): per plane a fresh
owned context wrapping the created texture; SkAssertResult demands a valid
texture, so a failure is fatal. -/
def uploadYUVPlanesLoop (gpu : Gpu) :
    List Nat → List PromiseImageCallbackContext × PromiseImageInfo →
    Option (List PromiseImageCallbackContext × PromiseImageInfo)
  | [], acc => some acc
  | j :: rest, (ctxs, e) =>
    let pm := e.yuvPixmap j
    match gpu ⟨pm.addr, pm.info.width, pm.info.height, pm.info.colorType, pm.rowBytes⟩ with
    | none => none
    | some t =>
      uploadYUVPlanesLoop gpu rest
        (ctxs ++ [⟨some t, 1⟩],
         { e with callbackContexts := e.callbackContexts.set j (some ctxs.length) })

/-- Upload of one catalog entry (lines 58-99). A YUV entry uploads each of its
planes, fatally on texture-creation failure; a normal entry uploads its bitmap
into context slot 0, tolerating texture-creation failure (the validity assert
is commented out in the source). -/
def uploadEntry (gpu : Gpu) (ctxs : List PromiseImageCallbackContext)
    (e : PromiseImageInfo) :
    Option (List PromiseImageCallbackContext × PromiseImageInfo) :=
  match e.yuvMeta with
  | some meta =>
    if areValidIndices meta.1 then
      uploadYUVPlanesLoop gpu (List.range (numValidPlanes meta.1)) (ctxs, e)
    else none
  | none =>
    let bm := e.normalBitmap.getD dfltBitmap
    let tex := gpu ⟨bm.pixels, bm.info.width, bm.info.height, bm.info.colorType, bm.rowBytes⟩
    some (ctxs ++ [⟨tex, 1⟩],
          { e with callbackContexts := e.callbackContexts.set 0 (some ctxs.length) })

/-- Tail of uploadAllToGPU: process the remaining entries, accumulating the
context store and the rewritten entries. -/
def uploadLoop (gpu : Gpu) :
    List PromiseImageInfo → List PromiseImageCallbackContext → List PromiseImageInfo →
    Option (List PromiseImageCallbackContext × List PromiseImageInfo)
  | [], ctxs, acc => some (ctxs, acc)
  | e :: rest, ctxs, acc =>
    match uploadEntry gpu ctxs e with
    | none => none
    | some r => uploadLoop gpu rest r.1 (acc ++ [r.2])

/-- DDLPromiseImageHelper::uploadAllToGPU (lines 54-101): one pass over every
entry, realizing backend textures and callback contexts. -/
def uploadAllToGPU (gpu : Gpu) (cat : List PromiseImageInfo) : Option HelperState :=
  (uploadLoop gpu cat [] []).map fun r => ⟨r.2, r.1, 0⟩

/-- The backend texture reachable through context slot j of an entry
(PromiseImageInfo::backendTexture(j); none models an invalid texture, also when
the slot was never filled). -/
def ctxTextureAt (st : HelperState) (e : PromiseImageInfo) (j : Nat) : Option Nat :=
  match e.callbackContexts.getD j none with
  | none => none
  | some cid => (st.ctxStore.getD cid dfltCtx).backendTexture

/-- One reference-count increment on context cid
(PromiseImageInfo::refCallbackContext(cid).release(): the minted promise image
keeps the reference). -/
def bumpRef (ctxs : List PromiseImageCallbackContext) (cid : Nat) :
    List PromiseImageCallbackContext :=
  ctxs.set cid
    { ctxs.getD cid dfltCtx with refCount := (ctxs.getD cid dfltCtx).refCount + 1 }

/-- The context ids of plane slots 0..n-1, all of which must be present. -/
def collectCtxIds (e : PromiseImageInfo) (n : Nat) : Option (List Nat) :=
  (List.range n).mapM fun j => e.callbackContexts.getD j none

/-- A reconstructed image: a CPU bitmap-backed fallback image
(SkImage::MakeFromBitmap), a single-plane promise image
(makePromiseTexture, carrying the descriptor the call site passes and the
captured context), or a YUVA promise image (makeYUVAPromiseTexture, carrying
the YUV color space, the plane sizes, the index mapping and the captured
per-plane contexts). The overall descriptor of the YUVA image is modelled from
the spec: the recorder reconstructs an image reporting the registered overall
descriptor (spec section 8, round-trip fidelity); the call site passes its
width and height explicitly. -/
inductive MintedKind where
  | bitmapImage (bm : SkBitmap)
  | promiseTexture (info : SkImageInfo) (ctxId : Nat)
  | yuvaPromiseTexture (yuvColorSpace : Nat) (sizes : List (Nat × Nat))
      (yuvaIndices : List Int) (info : SkImageInfo) (ctxIds : List Nat)
deriving DecidableEq, Repr

/-- A minted image together with the allocation id modelling C++ object
identity. -/
structure MintedImage where
  objId : Nat
  kind : MintedKind
deriving DecidableEq, Repr

/-- Width of a reconstructed image. -/
def MintedImage.width : MintedImage → Nat
  | ⟨_, .bitmapImage bm⟩ => bm.info.width
  | ⟨_, .promiseTexture info _⟩ => info.width
  | ⟨_, .yuvaPromiseTexture _ _ _ info _⟩ => info.width

/-- Height of a reconstructed image. -/
def MintedImage.height : MintedImage → Nat
  | ⟨_, .bitmapImage bm⟩ => bm.info.height
  | ⟨_, .promiseTexture info _⟩ => info.height
  | ⟨_, .yuvaPromiseTexture _ _ _ info _⟩ => info.height

/-- Color type of a reconstructed image. -/
def MintedImage.colorType : MintedImage → Nat
  | ⟨_, .bitmapImage bm⟩ => bm.info.colorType
  | ⟨_, .promiseTexture info _⟩ => info.colorType
  | ⟨_, .yuvaPromiseTexture _ _ _ info _⟩ => info.colorType

/-- Alpha type of a reconstructed image. -/
def MintedImage.alphaType : MintedImage → Nat
  | ⟨_, .bitmapImage bm⟩ => bm.info.alphaType
  | ⟨_, .promiseTexture info _⟩ => info.alphaType
  | ⟨_, .yuvaPromiseTexture _ _ _ info _⟩ => info.alphaType

/-- The callback contexts a reconstructed image references (none for a CPU
fallback image). -/
def MintedImage.mintedCtxIds : MintedImage → List Nat
  | ⟨_, .bitmapImage _⟩ => []
  | ⟨_, .promiseTexture _ cid⟩ => [cid]
  | ⟨_, .yuvaPromiseTexture _ _ _ _ cids⟩ => cids

/-- Whether a reconstructed image is the CPU fallback. -/
def MintedImage.isFallbackImage : MintedImage → Bool
  | ⟨_, .bitmapImage _⟩ => true
  | _ => false

/-- The per-entry body of PromiseImageCreator (lines 130-197), after the token
bounds check. With an invalid texture in slot 0 the entry must not be YUV and
must hold the captured immutable bitmap, and a bitmap-backed image is returned
WITHOUT being pushed onto the output list (the early return at line 137
precedes the push_back at line 195); with a valid texture the stored index must
equal the token, and a promise image is minted — YUVA from the plane metadata
and one context per plane, single-plane from the overall descriptor and the
slot-0 context — each mint taking one reference per context used, and the
image is pushed onto the output list. -/
def resolveEntryAt (st : HelperState) (recorder : Nat) (idx : Nat)
    (out : List MintedImage) :
    Option (HelperState × List MintedImage × MintedImage) :=
  let curImage := st.fImageInfo.getD idx dfltPIE
  match ctxTextureAt st curImage 0 with
  | none =>
    if curImage.isYUV then none
    else
      let bm := curImage.normalBitmap.getD dfltBitmap
      if bm.fIsImmutable then
        some ({ st with nextImageId := st.nextImageId + 1 }, out,
              ⟨st.nextImageId, .bitmapImage bm⟩)
      else none
  | some _ =>
    if curImage.index = idx then
      match curImage.yuvMeta with
      | some meta =>
        if areValidIndices meta.1 then
          match collectCtxIds curImage (numValidPlanes meta.1) with
          | none => none
          | some cids =>
            let sizes := (List.range (numValidPlanes meta.1)).map fun j =>
              ((curImage.yuvPixmap j).info.width, (curImage.yuvPixmap j).info.height)
            let img : MintedImage :=
              ⟨st.nextImageId,
               .yuvaPromiseTexture meta.2 sizes meta.1 curImage.overallInfo cids⟩
            some ({ st with
                      ctxStore := cids.foldl bumpRef st.ctxStore,
                      nextImageId := st.nextImageId + 1 },
                  out ++ [img], img)
        else none
      | none =>
        match curImage.callbackContexts.getD 0 none with
        | none => none
        | some cid =>
          let img : MintedImage :=
            ⟨st.nextImageId, .promiseTexture curImage.overallInfo cid⟩
          some ({ st with
                    ctxStore := bumpRef st.ctxStore cid,
                    nextImageId := st.nextImageId + 1 },
                out ++ [img], img)
    else none

/-- DDLPromiseImageHelper::PromiseImageCreator (lines 119-198) for one
substitution token: the bounds check on the decoded index
(SkASSERT(helper->isValidID(*indexPtr)), fatal on an out-of-range token), then
the per-entry resolution. -/
def PromiseImageCreator (st : HelperState) (recorder : Nat) (token : Int)
    (out : List MintedImage) :
    Option (HelperState × List MintedImage × MintedImage) :=
  if isValidIDAt st.fImageInfo.length token then
    resolveEntryAt st recorder token.toNat out
  else none

/-- DDLPromiseImageHelper::reinflateSKP (lines 103-114) over a byte stream
modelled as its list of substitution tokens: resolve every token in order,
threading the shared state and the caller-supplied output list, and collect
the images spliced into the reconstructed scene. -/
def reinflateSKP (st : HelperState) (recorder : Nat) (tokens : List Int) :
    Option (HelperState × List MintedImage × List MintedImage) :=
  tokens.foldlM
    (fun acc t =>
      (PromiseImageCreator acc.1 recorder t acc.2.1).map fun r =>
        (r.1, r.2.1, acc.2.2 ++ [r.2.2]))
    (st, ([] : List MintedImage), ([] : List MintedImage))

/-- M independent reinflate calls over the same byte stream, one per recorder
(each with its own fresh output list), collecting all produced images. -/
def reinflateMany : HelperState → List Int → List Nat →
    Option (HelperState × List MintedImage)
  | st, _, [] => some (st, [])
  | st, tokens, r :: rs =>
    match reinflateSKP st r tokens with
    | none => none
    | some (st', outList, _) =>
      match reinflateMany st' tokens rs with
      | none => none
      | some (st'', imgs) => some (st'', outList ++ imgs)

/-- The per-plane context ids a valid entry's minted promise images reference:
all planes 0..textureCount-1 for a YUV entry, just slot 0 otherwise. -/
def planeCtxIds (e : PromiseImageInfo) : Option (List Nat) :=
  match e.yuvMeta with
  | some meta =>
    if areValidIndices meta.1 then collectCtxIds e (numValidPlanes meta.1) else none
  | none => (e.callbackContexts.getD 0 none).map fun c => [c]

/-! Concrete sample data used by witnesses and counterexamples. -/

/-- A small decodable non-YUV image (uniqueID 42, 2x2 RGBA8888). -/
def wImg : SkImage :=
  ⟨42, 2, 2, kRGBA_8888_SkColorType, 1, 0, none, some [1, 2, 3, 4]⟩

/-- A second decodable non-YUV image with a distinct identity. -/
def wImgB : SkImage :=
  ⟨43, 4, 4, kRGBA_8888_SkColorType, 1, 0, none, some [9, 9]⟩

/-- An image whose pixel materialization fails: no YUV planes and no raster
pixels. -/
def badImg : SkImage :=
  ⟨99, 8, 8, kRGBA_8888_SkColorType, 2, 0, none, none⟩

/-- The partially-constructed entry addImage leaves behind for badImg. -/
def zombieEntry : PromiseImageInfo :=
  ⟨0, 99, ⟨8, 8, kRGBA_8888_SkColorType, 2, 0⟩, none, List.replicate 4 none, none,
   List.replicate 4 none⟩

/-- The bitmap captured for wImg at registration. -/
def wBitmap : SkBitmap :=
  ⟨⟨2, 2, kRGBA_8888_SkColorType, 1, 0⟩, [1, 2, 3, 4], 8, true⟩

/-- A catalog entry for wImg whose upload failed: context slot 0 points at a
context with no backend texture. -/
def cexFallbackEntry : PromiseImageInfo :=
  ⟨0, 42, ⟨2, 2, kRGBA_8888_SkColorType, 1, 0⟩, none, List.replicate 4 none,
   some wBitmap, [some 0, none, none, none]⟩

/-- A helper state holding only cexFallbackEntry and its texture-less context. -/
def cexFallbackState : HelperState :=
  ⟨[cexFallbackEntry], [⟨none, 1⟩], 0⟩

/-- A catalog entry for wImg whose upload succeeded: context slot 0 points at a
context with a valid backend texture. -/
def wReadyEntry : PromiseImageInfo :=
  ⟨0, 42, ⟨2, 2, kRGBA_8888_SkColorType, 1, 0⟩, none, List.replicate 4 none,
   some wBitmap, [some 0, none, none, none]⟩

/-- A helper state holding only wReadyEntry with a valid texture. -/
def wReadyState : HelperState :=
  ⟨[wReadyEntry], [⟨some 7, 1⟩], 0⟩

/-- The state wReadyState reaches after minting one promise image. -/
def wReadyStateAfter : HelperState :=
  ⟨[wReadyEntry], [⟨some 7, 2⟩], 1⟩

/-- The promise image minted from wReadyEntry with object id 0. -/
def wPromiseImg : MintedImage :=
  ⟨0, MintedKind.promiseTexture ⟨2, 2, kRGBA_8888_SkColorType, 1, 0⟩ 0⟩

/-- The helper state after registering wImg into the empty catalog and
uploading with an always-succeeding GPU. -/
def wOkUploadedState : HelperState :=
  ⟨[wReadyEntry], [⟨some 5, 1⟩], 0⟩

/-- A GPU backend that declines every texture creation. -/
def wGpuFail : Gpu := fun _ => none

/-- A GPU backend that grants every texture creation. -/
def wGpuOk : Gpu := fun _ => some 5

/-- IndexInvariant: every catalog entry's stored index field equals its
position in the entry sequence. -/
def IndexInvariant (cat : List PromiseImageInfo) : Prop :=
  ∀ j, j < cat.length → (cat.getD j dfltPIE).index = j

/-! Helper lemmas about list updates. -/

/-- Reading back the position just written by List.set. -/
theorem getD_set_eq {α : Type} :
    ∀ (l : List α) (i : Nat) (a d : α), i < l.length → (l.set i a).getD i d = a
  | [], i, _, _, h => absurd h (by simp)
  | _ :: _, 0, _, _, _ => rfl
  | _ :: xs, i + 1, a, d, h =>
    getD_set_eq xs i a d (Nat.lt_of_succ_lt_succ (by simpa using h))

/-- List.set leaves every other position unchanged. -/
theorem getD_set_neq {α : Type} :
    ∀ (l : List α) (i j : Nat) (a d : α), i ≠ j → (l.set i a).getD j d = l.getD j d
  | [], _, _, _, _, _ => by simp
  | _ :: _, 0, 0, _, _, h => absurd rfl h
  | _ :: _, 0, _ + 1, _, _, _ => rfl
  | _ :: _, _ + 1, 0, _, _, _ => rfl
  | _ :: xs, i + 1, j + 1, a, d, h =>
    getD_set_neq xs i j a d (fun hij => h (by rw [hij]))

/-! Claim theorems. -/

/-- Claim C9: the local-matrix filter factory returns null for a null input or
a matrix with an affine or perspective component, returns the input itself
unchanged for the identity matrix, and otherwise returns a new wrapper
composing the matrix with the input. -/
theorem claim_C9 (m : SkMatrix) (input : Option SkImageFilter) :
    (input = none → SkLocalMatrixImageFilter.Make m input = none) ∧
    (m.getType &&& (kAffine_Mask ||| kPerspective_Mask) ≠ 0 →
      SkLocalMatrixImageFilter.Make m input = none) ∧
    (∀ f, input = some f → m.isIdentity = true →
      SkLocalMatrixImageFilter.Make m input = some f) ∧
    (∀ f, input = some f → m.getType &&& (kAffine_Mask ||| kPerspective_Mask) = 0 →
      m.isIdentity = false →
      SkLocalMatrixImageFilter.Make m input =
        some (SkImageFilter.localMatrix m f)) := by
  refine ⟨?_, ?_, ?_, ?_⟩
  · rintro rfl; rfl
  · intro h
    cases input with
    | none => rfl
    | some f => simp [SkLocalMatrixImageFilter.Make, h]
  · rintro f rfl hid
    have h0 : m.getType = 0 := by
      have := of_decide_eq_true hid
      exact this
    simp [SkLocalMatrixImageFilter.Make, SkMatrix.isIdentity, h0]
  · rintro f rfl hmask hid
    have h0 : ¬m.getType = 0 := by
      intro h
      rw [SkMatrix.isIdentity, h] at hid
      simp at hid
    simp [SkLocalMatrixImageFilter.Make, SkMatrix.isIdentity, hmask, h0]

/-- Witness for C9: a pure-translation matrix wraps a leaf filter. -/
theorem claim_C9_witness :
    SkLocalMatrixImageFilter.Make ⟨1, 0, 5, 0, 1, 0, 0, 0, 1⟩
        (some (SkImageFilter.leaf 3)) =
      some (SkImageFilter.localMatrix ⟨1, 0, 5, 0, 1, 0, 0, 0, 1⟩
        (SkImageFilter.leaf 3)) :=
  (claim_C9 ⟨1, 0, 5, 0, 1, 0, 0, 0, 1⟩ (some (SkImageFilter.leaf 3))).2.2.2
    (SkImageFilter.leaf 3) rfl (by decide) (by decide)

/-- Claim C10: on release the sync object is deleted exactly when the handle is
non-zero and the wrapper owns it; on abandon it is never deleted; both paths
reset the stored handle to zero. -/
theorem claim_C10 (s : GrGLSemaphore) :
    (s.onRelease.1.isSome ↔ (s.fSync ≠ 0 ∧ s.fIsOwned = true)) ∧
    (s.onRelease.1 = if s.fSync ≠ 0 ∧ s.fIsOwned = true then some s.fSync else none) ∧
    s.onRelease.2.fSync = 0 ∧
    s.onAbandon.1 = none ∧
    s.onAbandon.2.fSync = 0 := by
  refine ⟨?_, rfl, rfl, rfl, rfl⟩
  by_cases h : s.fSync ≠ 0 ∧ s.fIsOwned = true
  · simp [GrGLSemaphore.onRelease, h]
  · simp [GrGLSemaphore.onRelease, h]

/-- Claim C3 (evaluation at the failing input): registering an image whose
pixel materialization fails returns the sentinel -1, but the catalog is NOT
left as if the registration had never been attempted: the partially
constructed entry stays, the size grows to 1, and a subsequent lookup by the
same identity returns that entry's index 0. -/
theorem claim_C3 :
    findOrDefineImage [] badImg = ([zombieEntry], -1) ∧
    (findOrDefineImage [] badImg).1.length = 1 ∧
    findImage [zombieEntry] badImg = 0 := by
  decide

/-- addImage always appends exactly one entry, which records the image's
uniqueID and the position it was appended at. -/
theorem addImage_append (cat : List PromiseImageInfo) (img : SkImage) :
    ∃ e, (addImage cat img).1 = cat ++ [e] ∧
      e.originalUniqueID = img.uniqueID ∧ e.index = cat.length := by
  unfold addImage
  cases img.yuvPlanesData with
  | some y => exact ⟨_, rfl, rfl, rfl⟩
  | none =>
    cases img.rasterPixels with
    | none => exact ⟨_, rfl, rfl, rfl⟩
    | some px => exact ⟨_, rfl, rfl, rfl⟩

/-- When the image materializes, addImage returns the position of the appended
entry. -/
theorem addImage_ret (cat : List PromiseImageInfo) (img : SkImage)
    (hmat : img.yuvPlanesData.isSome ∨ img.rasterPixels.isSome) :
    (addImage cat img).2 = (cat.length : Int) := by
  unfold addImage
  cases hy : img.yuvPlanesData with
  | some y => rfl
  | none =>
    cases hr : img.rasterPixels with
    | some px => rfl
    | none => rw [hy, hr] at hmat; simp at hmat

/-- Claim C8: the catalog starts with the index invariant — every entry's
stored index field equals its position — and every registerOrFind call
preserves it. -/
theorem claim_C8 :
    IndexInvariant [] ∧
    ∀ cat img, IndexInvariant cat → IndexInvariant (findOrDefineImage cat img).1 := by
  constructor
  · intro j hj; simp at hj
  · intro cat img hinv
    unfold findOrDefineImage
    by_cases hpre : 0 ≤ findImage cat img
    · simpa [hpre] using hinv
    · simp only [hpre, if_false]
      obtain ⟨e, happ, _, hidx⟩ := addImage_append cat img
      rw [happ]
      intro j hj
      rw [List.length_append, List.length_singleton] at hj
      rcases Nat.lt_succ_iff_lt_or_eq.mp hj with hlt | heq
      · rw [List.getD_append _ _ _ _ hlt]
        exact hinv j hlt
      · subst heq
        rw [List.getD_append_right _ _ _ _ (Nat.le_refl _), Nat.sub_self]
        exact hidx

/-- Witness for C8: the invariant holds after registering a concrete image
into the empty catalog. -/
theorem claim_C8_witness : IndexInvariant (findOrDefineImage [] wImg).1 :=
  claim_C8.2 [] wImg (fun j hj => absurd hj (Nat.not_lt_zero j))

/-! Lemmas about the linear dedup scan. -/

/-- A miss of the linear scan stays a miss on the prefix after appending, and
the appended entry is found at the old length when its identity matches. -/
theorem findImageAux_append_of_neg :
    ∀ (l : List PromiseImageInfo) (e : PromiseImageInfo) (uid : Nat) (i : Nat),
      findImageAux l uid i = -1 →
      findImageAux (l ++ [e]) uid i =
        if e.originalUniqueID = uid then ((i + l.length : Nat) : Int) else -1
  | [], e, uid, i, _ => by
    simp [findImageAux]
  | x :: xs, e, uid, i, h => by
    simp only [List.cons_append, List.append_eq, findImageAux] at h ⊢
    by_cases hx : x.originalUniqueID = uid
    · rw [if_pos hx] at h; exact absurd h (by omega)
    · rw [if_neg hx] at h ⊢
      rw [findImageAux_append_of_neg xs e uid (i + 1) h]
      by_cases he : e.originalUniqueID = uid
      · rw [if_pos he, if_pos he]
        simp only [List.length_cons]
        omega
      · rw [if_neg he, if_neg he]

/-- A hit of the linear scan is unchanged by appending entries behind it. -/
theorem findImageAux_append_of_nonneg :
    ∀ (l ext : List PromiseImageInfo) (uid : Nat) (i : Nat),
      0 ≤ findImageAux l uid i →
      findImageAux (l ++ ext) uid i = findImageAux l uid i
  | [], _, uid, i, h => by
    simp [findImageAux] at h
  | x :: xs, ext, uid, i, h => by
    simp only [findImageAux] at h
    simp only [List.cons_append, List.append_eq, findImageAux]
    by_cases hx : x.originalUniqueID = uid
    · rw [if_pos hx, if_pos hx]
    · rw [if_neg hx] at h
      rw [if_neg hx, if_neg hx]
      exact findImageAux_append_of_nonneg xs ext uid (i + 1) h

/-- A fresh identity is found at the old length right after being appended. -/
theorem findImage_append_fresh (cat : List PromiseImageInfo) (img : SkImage)
    (e : PromiseImageInfo) (hfresh : findImage cat img = -1)
    (he : e.originalUniqueID = img.uniqueID) :
    findImage (cat ++ [e]) img = (cat.length : Int) := by
  unfold findImage at hfresh ⊢
  rw [findImageAux_append_of_neg cat e img.uniqueID 0 hfresh, if_pos he]
  simp

/-- A dedup hit survives appending further entries. -/
theorem findImage_append_stable (cat ext : List PromiseImageInfo) (img : SkImage)
    (h : 0 ≤ findImage cat img) :
    findImage (cat ++ ext) img = findImage cat img :=
  findImageAux_append_of_nonneg cat ext img.uniqueID 0 h

/-- Every registration pass only appends entries to the catalog. -/
theorem registerAll_append (imgs : List SkImage) :
    ∀ cat, ∃ ext, registerAll cat imgs = cat ++ ext := by
  induction imgs with
  | nil => intro cat; exact ⟨[], by simp [registerAll]⟩
  | cons img rest ih =>
    intro cat
    have hstep : ∃ ext₁, (findOrDefineImage cat img).1 = cat ++ ext₁ := by
      unfold findOrDefineImage
      by_cases hpre : 0 ≤ findImage cat img
      · exact ⟨[], by simp [hpre]⟩
      · obtain ⟨e, happ, _, _⟩ := addImage_append cat img
        exact ⟨[e], by simp [hpre, happ]⟩
    obtain ⟨ext₁, h₁⟩ := hstep
    obtain ⟨ext₂, h₂⟩ := ih (cat ++ ext₁)
    refine ⟨ext₁ ++ ext₂, ?_⟩
    have : registerAll cat (img :: rest) = registerAll (findOrDefineImage cat img).1 rest := by
      simp [registerAll]
    rw [this, h₁, h₂, List.append_assoc]

/-- After a dedup hit at index k, registering the same image any number of
times more returns k every time without touching the catalog. -/
theorem registerSame_of_hit (img : SkImage) (k : Int) :
    ∀ (n : Nat) (cat : List PromiseImageInfo), findImage cat img = k → 0 ≤ k →
      registerSame cat img n = (cat, List.replicate n k)
  | 0, cat, _, _ => rfl
  | n + 1, cat, hfind, hk => by
    have ih := registerSame_of_hit img k n cat hfind hk
    have hstep : findOrDefineImage cat img = (cat, k) := by
      simp only [findOrDefineImage, hfind]
      rw [if_pos hk]
    simp only [registerSame, hstep, ih, List.replicate_succ]

/-- Claim C1: registering a fresh, materializable image identity N times
(N >= 1) yields the index catalogSize on every call, grows the catalog by
exactly one entry regardless of N, and that identity keeps resolving to the
same index under any sequence of later registrations. -/
theorem claim_C1 (cat : List PromiseImageInfo) (img : SkImage) (N : Nat)
    (hmat : img.yuvPlanesData.isSome ∨ img.rasterPixels.isSome)
    (hfresh : findImage cat img = -1) (hN : 1 ≤ N) :
    (registerSame cat img N).1.length = cat.length + 1 ∧
    (registerSame cat img N).2 = List.replicate N (cat.length : Int) ∧
    ∀ later : List SkImage,
      findImage (registerAll (registerSame cat img N).1 later) img =
        (cat.length : Int) := by
  obtain ⟨e, happ, huid, _⟩ := addImage_append cat img
  have hpair : addImage cat img = (cat ++ [e], (cat.length : Int)) := by
    rw [← happ, ← addImage_ret cat img hmat]
  have hfirst : findOrDefineImage cat img = (cat ++ [e], (cat.length : Int)) := by
    simp only [findOrDefineImage, hfresh]
    rw [if_neg (by decide)]
    exact hpair
  have hfind₁ : findImage (cat ++ [e]) img = (cat.length : Int) :=
    findImage_append_fresh cat img e hfresh huid
  obtain ⟨n, rfl⟩ : ∃ n, N = n + 1 := ⟨N - 1, by omega⟩
  have hrest := registerSame_of_hit img (cat.length : Int) n (cat ++ [e]) hfind₁
    (Int.ofNat_nonneg _)
  have hall : registerSame cat img (n + 1) =
      (cat ++ [e], (cat.length : Int) :: List.replicate n (cat.length : Int)) := by
    simp only [registerSame, hfirst, hrest]
  refine ⟨?_, ?_, ?_⟩
  · rw [hall]; simp
  · rw [hall, List.replicate_succ]
  · intro later
    rw [hall]
    obtain ⟨ext, hext⟩ := registerAll_append later (cat ++ [e])
    rw [hext]
    rw [findImage_append_stable (cat ++ [e]) ext img (by rw [hfind₁]; exact Int.ofNat_nonneg _)]
    exact hfind₁

/-- Witness for C1: registering wImg twice into the empty catalog returns
index 0 both times, the catalog has one entry, and the index survives a later
registration of a different image. -/
theorem claim_C1_witness :
    (registerSame [] wImg 2).1.length = 1 ∧
    (registerSame [] wImg 2).2 = List.replicate 2 (0 : Int) ∧
    findImage (registerAll (registerSame [] wImg 2).1 [wImgB]) wImg = (0 : Int) := by
  have h := claim_C1 [] wImg 2 (by decide) (by decide) (by decide)
  exact ⟨h.1, h.2.1, h.2.2 [wImgB]⟩

/-- Claim C6: per-token resolution during reinflate bounds-checks the decoded
index — an out-of-range token fails fatally before any entry is read, and an
in-range token proceeds to the per-entry resolution body. -/
theorem claim_C6 (st : HelperState) (r : Nat) (out : List MintedImage) (token : Int) :
    (isValidIDAt st.fImageInfo.length token = false →
      PromiseImageCreator st r token out = none) ∧
    (isValidIDAt st.fImageInfo.length token = true →
      PromiseImageCreator st r token out = resolveEntryAt st r token.toNat out) := by
  constructor
  · intro h; simp [PromiseImageCreator, h]
  · intro h; simp [PromiseImageCreator, h]

/-- Witness for C6: token 5 is rejected on a one-entry catalog, token 0 is
resolved. -/
theorem claim_C6_witness :
    PromiseImageCreator wReadyState 1 5 [] = none ∧
    PromiseImageCreator wReadyState 1 0 [] = resolveEntryAt wReadyState 1 0 [] :=
  ⟨(claim_C6 wReadyState 1 [] 5).1 (by decide),
   (claim_C6 wReadyState 1 [] 0).2 (by decide)⟩

/-- Counterexample to C2 as stated: resolving a token for an entry whose
upload failed produces a CPU fallback image, yet the caller-supplied output
list stays empty — the produced image is not appended to it. -/
theorem claim_C2_counterexample :
    PromiseImageCreator cexFallbackState 7 0 [] =
      some ({ cexFallbackState with nextImageId := 1 }, [],
            ⟨0, MintedKind.bitmapImage wBitmap⟩) ∧
    (⟨0, MintedKind.bitmapImage wBitmap⟩ : MintedImage) ∉ ([] : List MintedImage) :=
  ⟨by decide, by simp⟩

/-- Claim C2 (amended): whenever per-token resolution succeeds, a minted GPU
promise image is appended to the caller-supplied output list, while a CPU
fallback image leaves the list untouched. -/
theorem claim_C2 (st st' : HelperState) (r : Nat) (t : Int)
    (out out' : List MintedImage) (img : MintedImage)
    (h : PromiseImageCreator st r t out = some (st', out', img)) :
    out' = if img.isFallbackImage then out else out ++ [img] := by
  simp only [PromiseImageCreator] at h
  split at h
  · simp only [resolveEntryAt] at h
    split at h
    · split at h
      · exact Option.noConfusion h
      · split at h
        · simp only [Option.some.injEq, Prod.mk.injEq] at h
          obtain ⟨-, h2, h3⟩ := h
          subst h2; subst h3
          simp [MintedImage.isFallbackImage]
        · exact Option.noConfusion h
    · split at h
      · split at h
        · split at h
          · split at h
            · exact Option.noConfusion h
            · simp only [Option.some.injEq, Prod.mk.injEq] at h
              obtain ⟨-, h2, h3⟩ := h
              subst h2; subst h3
              simp [MintedImage.isFallbackImage]
          · exact Option.noConfusion h
        · split at h
          · exact Option.noConfusion h
          · simp only [Option.some.injEq, Prod.mk.injEq] at h
            obtain ⟨-, h2, h3⟩ := h
            subst h2; subst h3
            simp [MintedImage.isFallbackImage]
      · exact Option.noConfusion h
  · exact Option.noConfusion h

/-- Witness for C2 (amended): a successful promise mint appends exactly the
minted image. -/
theorem claim_C2_witness :
    [wPromiseImg] = if wPromiseImg.isFallbackImage then ([] : List MintedImage)
                    else [] ++ [wPromiseImg] :=
  claim_C2 wReadyState wReadyStateAfter 3 0 [] [wPromiseImg] wPromiseImg (by decide)

/-- Resolution of an in-range token whose entry has no valid texture in slot 0:
for every recorder and every output list, the result is the same bitmap-backed
image built from the captured buffer, the catalog entries are untouched and
the output list is returned unchanged. -/
theorem resolve_fallback (st : HelperState) (r idx : Nat) (out : List MintedImage)
    (e : PromiseImageInfo) (bm : SkBitmap)
    (hget : st.fImageInfo.getD idx dfltPIE = e)
    (hlt : idx < st.fImageInfo.length)
    (hyuv : e.yuvMeta = none)
    (htex : ctxTextureAt st e 0 = none)
    (hbm : e.normalBitmap = some bm)
    (himm : bm.fIsImmutable = true) :
    PromiseImageCreator st r (idx : Int) out =
      some ({ st with nextImageId := st.nextImageId + 1 }, out,
            ⟨st.nextImageId, MintedKind.bitmapImage bm⟩) := by
  have hvalid : isValidIDAt st.fImageInfo.length (idx : Int) = true := by
    simp only [isValidIDAt, decide_eq_true_eq]
    constructor
    · exact_mod_cast Nat.zero_le idx
    · exact_mod_cast hlt
  have htonat : (Int.toNat (idx : Int)) = idx := Int.toNat_natCast idx
  unfold PromiseImageCreator
  rw [if_pos hvalid, htonat]
  simp only [resolveEntryAt, hget, htex, PromiseImageInfo.isYUV, hyuv,
    Option.isSome_none, Bool.false_eq_true, if_false, hbm, Option.getD_some, himm,
    if_true]

/-- Upload of a one-entry non-YUV catalog: a single context is created wrapping
whatever the GPU returned for the captured bitmap, and only the entry's
context slot 0 changes. -/
theorem uploadAll_single_nonyuv (gpu : Gpu) (e : PromiseImageInfo) (bm : SkBitmap)
    (hyuv : e.yuvMeta = none) (hbm : e.normalBitmap = some bm) :
    uploadAllToGPU gpu [e] =
      some ⟨[{ e with callbackContexts := e.callbackContexts.set 0 (some 0) }],
            [⟨gpu ⟨bm.pixels, bm.info.width, bm.info.height, bm.info.colorType,
                   bm.rowBytes⟩, 1⟩], 0⟩ := by
  simp only [uploadAllToGPU, uploadLoop, uploadEntry, hyuv, hbm, Option.getD_some]
  rfl

/-- Claim C4: (1) any entry whose texture is invalid resolves, for every
recorder and state, to the same bitmap-backed image holding the entry's
captured buffer, leaving the catalog untouched; (2) registering a non-YUV
image into an empty catalog and uploading with a GPU that declines its texture
yields a state in which every resolution of its token, by any recorder, mints
the CPU image whose pixels are exactly the originally captured buffer. -/
theorem claim_C4 :
    (∀ (st : HelperState) (r idx : Nat) (out : List MintedImage)
       (e : PromiseImageInfo) (bm : SkBitmap),
       st.fImageInfo.getD idx dfltPIE = e →
       idx < st.fImageInfo.length →
       e.yuvMeta = none →
       ctxTextureAt st e 0 = none →
       e.normalBitmap = some bm →
       bm.fIsImmutable = true →
       PromiseImageCreator st r (idx : Int) out =
         some ({ st with nextImageId := st.nextImageId + 1 }, out,
               ⟨st.nextImageId, MintedKind.bitmapImage bm⟩)) ∧
    (∀ (img : SkImage) (px : List Nat) (gpu : Gpu),
       img.yuvPlanesData = none →
       img.rasterPixels = some px →
       gpu ⟨px, img.width, img.height, img.colorType, (mkOverallInfo img).minRowBytes⟩ = none →
       ∃ st : HelperState,
         uploadAllToGPU gpu (findOrDefineImage [] img).1 = some st ∧
         ∀ (r' : Nat) (out' : List MintedImage),
           PromiseImageCreator st r' 0 out' =
             some ({ st with nextImageId := st.nextImageId + 1 }, out',
                   ⟨st.nextImageId,
                    MintedKind.bitmapImage
                      ⟨mkOverallInfo img, px, (mkOverallInfo img).minRowBytes, true⟩⟩)) := by
  constructor
  · intro st r idx out e bm hget hlt hyuv htex hbm himm
    exact resolve_fallback st r idx out e bm hget hlt hyuv htex hbm himm
  · intro img px gpu hyuv hpx hgpu
    have hreg : findOrDefineImage [] img =
        ([⟨0, img.uniqueID, mkOverallInfo img, none, List.replicate 4 none,
           some ⟨mkOverallInfo img, px, (mkOverallInfo img).minRowBytes, true⟩,
           List.replicate 4 none⟩], 0) := by
      simp only [findOrDefineImage, findImage, findImageAux]
      rw [if_neg (by decide)]
      simp only [addImage, hyuv, hpx]
      rfl
    have hup := uploadAll_single_nonyuv gpu
      ⟨0, img.uniqueID, mkOverallInfo img, none, List.replicate 4 none,
       some ⟨mkOverallInfo img, px, (mkOverallInfo img).minRowBytes, true⟩,
       List.replicate 4 none⟩
      ⟨mkOverallInfo img, px, (mkOverallInfo img).minRowBytes, true⟩ rfl rfl
    dsimp only [mkOverallInfo] at hup
    dsimp only [mkOverallInfo] at hgpu
    rw [hgpu] at hup
    refine ⟨⟨[⟨0, img.uniqueID, mkOverallInfo img, none, List.replicate 4 none,
               some ⟨mkOverallInfo img, px, (mkOverallInfo img).minRowBytes, true⟩,
               [some 0, none, none, none]⟩],
             [⟨none, 1⟩], 0⟩, ?_, ?_⟩
    · rw [hreg]
      exact hup
    · intro r' out'
      exact resolve_fallback _ r' 0 out' _
        ⟨mkOverallInfo img, px, (mkOverallInfo img).minRowBytes, true⟩
        rfl (by simp) rfl rfl rfl rfl

/-- Witness for C4: the full pipeline at a concrete image and a GPU that
declines every texture. -/
theorem claim_C4_witness :
    uploadAllToGPU wGpuFail (findOrDefineImage [] wImg).1 = some cexFallbackState ∧
    PromiseImageCreator cexFallbackState 3 0 [] =
      some ({ cexFallbackState with nextImageId := 1 }, [],
            ⟨0, MintedKind.bitmapImage wBitmap⟩) := by
  obtain ⟨st, hup, hres⟩ := claim_C4.2 wImg [1, 2, 3, 4] wGpuFail rfl rfl rfl
  have hcomp : uploadAllToGPU wGpuFail (findOrDefineImage [] wImg).1 =
      some cexFallbackState := by decide
  rw [hcomp] at hup
  have hst : st = cexFallbackState := (Option.some.inj hup).symm
  subst hst
  exact ⟨hcomp, hres 3 []⟩

/-- Shape of any successful per-entry resolution: the image either carries a
bitmap stored in the entry (fallback path) or reports the entry's overall
descriptor (promise paths). -/
theorem resolveEntry_result (st st' : HelperState) (r idx : Nat)
    (out out' : List MintedImage) (res : MintedImage)
    (h : resolveEntryAt st r idx out = some (st', out', res)) :
    (∃ bm, (st.fImageInfo.getD idx dfltPIE).normalBitmap = some bm ∧
       res.width = bm.info.width ∧ res.height = bm.info.height ∧
       res.colorType = bm.info.colorType ∧ res.alphaType = bm.info.alphaType) ∨
    (res.width = (st.fImageInfo.getD idx dfltPIE).overallInfo.width ∧
     res.height = (st.fImageInfo.getD idx dfltPIE).overallInfo.height ∧
     res.colorType = (st.fImageInfo.getD idx dfltPIE).overallInfo.colorType ∧
     res.alphaType = (st.fImageInfo.getD idx dfltPIE).overallInfo.alphaType) := by
  simp only [resolveEntryAt] at h
  split at h
  · split at h
    · exact Option.noConfusion h
    · split at h
      · left
        simp only [Option.some.injEq, Prod.mk.injEq] at h
        obtain ⟨-, -, h3⟩ := h
        subst h3
        cases hnb : (st.fImageInfo.getD idx dfltPIE).normalBitmap with
        | none =>
          rename_i hc
          rw [hnb] at hc
          exact absurd hc (by simp [dfltBitmap])
        | some bm =>
          refine ⟨bm, rfl, ?_⟩
          simp [MintedImage.width, MintedImage.height, MintedImage.colorType,
            MintedImage.alphaType]
      · exact Option.noConfusion h
  · split at h
    · split at h
      · split at h
        · split at h
          · exact Option.noConfusion h
          · right
            simp only [Option.some.injEq, Prod.mk.injEq] at h
            obtain ⟨-, -, h3⟩ := h
            subst h3
            simp [MintedImage.width, MintedImage.height, MintedImage.colorType,
              MintedImage.alphaType]
        · exact Option.noConfusion h
      · split at h
        · exact Option.noConfusion h
        · right
          simp only [Option.some.injEq, Prod.mk.injEq] at h
          obtain ⟨-, -, h3⟩ := h
          subst h3
          simp [MintedImage.width, MintedImage.height, MintedImage.colorType,
            MintedImage.alphaType]
    · exact Option.noConfusion h

/-- Registering any image into the empty catalog appends exactly one entry,
whose overall descriptor is the image's, and whose captured bitmap (when
present) also carries that descriptor. -/
theorem register_empty (img : SkImage) :
    ∃ e, (findOrDefineImage [] img).1 = [e] ∧
      e.overallInfo = mkOverallInfo img ∧
      (∀ bm, e.normalBitmap = some bm → bm.info = mkOverallInfo img) := by
  simp only [findOrDefineImage, findImage, findImageAux]
  rw [if_neg (by decide)]
  unfold addImage
  cases img.yuvPlanesData with
  | some y =>
    exact ⟨_, rfl, rfl, fun bm h => Option.noConfusion h⟩
  | none =>
    cases img.rasterPixels with
    | none => exact ⟨_, rfl, rfl, fun bm h => Option.noConfusion h⟩
    | some px =>
      refine ⟨_, rfl, rfl, fun bm h => ?_⟩
      rw [← Option.some.inj h]

/-- The YUV plane upload loop only fills callback-context slots; every other
entry field is preserved. -/
theorem uploadYUVLoop_fields (gpu : Gpu) :
    ∀ (js : List Nat) (ctxs : List PromiseImageCallbackContext)
      (e : PromiseImageInfo) (ctxs' : List PromiseImageCallbackContext)
      (e' : PromiseImageInfo),
      uploadYUVPlanesLoop gpu js (ctxs, e) = some (ctxs', e') →
      e'.overallInfo = e.overallInfo ∧ e'.normalBitmap = e.normalBitmap ∧
      e'.yuvMeta = e.yuvMeta ∧ e'.index = e.index
  | [], ctxs, e, ctxs', e', h => by
    simp only [uploadYUVPlanesLoop, Option.some.injEq, Prod.mk.injEq] at h
    obtain ⟨-, h2⟩ := h
    subst h2
    exact ⟨rfl, rfl, rfl, rfl⟩
  | j :: rest, ctxs, e, ctxs', e', h => by
    simp only [uploadYUVPlanesLoop] at h
    split at h
    · exact Option.noConfusion h
    · obtain ⟨h1, h2, h3, h4⟩ := uploadYUVLoop_fields gpu rest _ _ _ _ h
      exact ⟨h1, h2, h3, h4⟩

/-- uploadEntry only fills callback-context slots; every other entry field is
preserved. -/
theorem uploadEntry_fields (gpu : Gpu) (ctxs : List PromiseImageCallbackContext)
    (e : PromiseImageInfo) (ctxs' : List PromiseImageCallbackContext)
    (e' : PromiseImageInfo) (h : uploadEntry gpu ctxs e = some (ctxs', e')) :
    e'.overallInfo = e.overallInfo ∧ e'.normalBitmap = e.normalBitmap ∧
    e'.yuvMeta = e.yuvMeta ∧ e'.index = e.index := by
  unfold uploadEntry at h
  split at h
  · split at h
    · exact uploadYUVLoop_fields gpu _ _ _ _ _ h
    · exact Option.noConfusion h
  · simp only [Option.some.injEq, Prod.mk.injEq] at h
    obtain ⟨-, h2⟩ := h
    subst h2
    exact ⟨rfl, rfl, rfl, rfl⟩

/-- Uploading a one-entry catalog is uploading that entry. -/
theorem uploadAll_single (gpu : Gpu) (e : PromiseImageInfo) (st : HelperState)
    (h : uploadAllToGPU gpu [e] = some st) :
    ∃ ctxs' e', uploadEntry gpu [] e = some (ctxs', e') ∧ st.fImageInfo = [e'] := by
  simp only [uploadAllToGPU, uploadLoop] at h
  split at h
  · exact Option.noConfusion h
  · rename_i r heq
    simp only [uploadLoop, Option.map_some', Option.some.injEq] at h
    subst h
    exact ⟨r.1, r.2, heq, rfl⟩

/-- Claim C7: an image registered into an empty catalog, uploaded, and then
reinflated through its own token yields a reconstructed image whose width,
height, color type and alpha type equal those captured at registration. -/
theorem claim_C7 (img : SkImage) (gpu : Gpu) (st st' : HelperState) (r : Nat)
    (out out' : List MintedImage) (res : MintedImage)
    (hup : uploadAllToGPU gpu (findOrDefineImage [] img).1 = some st)
    (hres : PromiseImageCreator st r (findOrDefineImage [] img).2 out =
      some (st', out', res)) :
    res.width = img.width ∧ res.height = img.height ∧
    res.colorType = img.colorType ∧ res.alphaType = img.alphaType := by
  obtain ⟨e, hcat, hoi, hbm⟩ := register_empty img
  rw [hcat] at hup
  obtain ⟨ctxs', e', hentry, hst⟩ := uploadAll_single gpu e st hup
  obtain ⟨hoi', hnb', -, -⟩ := uploadEntry_fields gpu [] e ctxs' e' hentry
  unfold PromiseImageCreator at hres
  split at hres
  · rename_i hv
    have hlen : st.fImageInfo.length = 1 := by rw [hst]; rfl
    have htok : ((findOrDefineImage [] img).2).toNat = 0 := by
      rw [hlen] at hv
      simp only [isValidIDAt, decide_eq_true_eq] at hv
      omega
    rw [htok] at hres
    have hshape := resolveEntry_result st st' r 0 out out' res hres
    rw [hst] at hshape
    have hgetD : ([e'].getD 0 dfltPIE) = e' := rfl
    rw [hgetD] at hshape
    rcases hshape with ⟨bm, hsome, hw, hh, hc, ha⟩ | ⟨hw, hh, hc, ha⟩
    · rw [hnb'] at hsome
      have hbi := hbm bm hsome
      rw [hw, hh, hc, ha, hbi]
      exact ⟨rfl, rfl, rfl, rfl⟩
    · rw [hw, hh, hc, ha, hoi', hoi]
      exact ⟨rfl, rfl, rfl, rfl⟩
  · exact Option.noConfusion hres

/-- Witness for C7: the pipeline at a concrete image and an always-succeeding
GPU. -/
theorem claim_C7_witness :
    wPromiseImg.width = wImg.width ∧ wPromiseImg.height = wImg.height ∧
    wPromiseImg.colorType = wImg.colorType ∧ wPromiseImg.alphaType = wImg.alphaType :=
  claim_C7 wImg wGpuOk wOkUploadedState ⟨[wReadyEntry], [⟨some 5, 2⟩], 1⟩ 2
    [] [wPromiseImg] wPromiseImg (by decide) (by decide)

/-! Reference-count bookkeeping lemmas. -/

/-- bumpRef preserves the store size. -/
theorem length_bumpRef (ctxs : List PromiseImageCallbackContext) (cid : Nat) :
    (bumpRef ctxs cid).length = ctxs.length := by
  simp [bumpRef]

/-- bumpRef never changes a backend texture. -/
theorem bumpRef_tex (ctxs : List PromiseImageCallbackContext) (cid j : Nat) :
    ((bumpRef ctxs cid).getD j dfltCtx).backendTexture =
      (ctxs.getD j dfltCtx).backendTexture := by
  by_cases hj : cid = j
  · subst hj
    by_cases h : cid < ctxs.length
    · rw [bumpRef, getD_set_eq _ _ _ _ h]
    · have h1 : ctxs.length ≤ cid := Nat.le_of_not_lt h
      have h2 : (bumpRef ctxs cid).length ≤ cid := by rw [length_bumpRef]; exact h1
      rw [List.getD_eq_default _ _ h2, List.getD_eq_default _ _ h1]
  · rw [bumpRef, getD_set_neq _ _ _ _ _ hj]

/-- bumpRef increments the targeted in-range reference count. -/
theorem bumpRef_refCount_self (ctxs : List PromiseImageCallbackContext) (cid : Nat)
    (h : cid < ctxs.length) :
    ((bumpRef ctxs cid).getD cid dfltCtx).refCount =
      (ctxs.getD cid dfltCtx).refCount + 1 := by
  rw [bumpRef, getD_set_eq _ _ _ _ h]

/-- bumpRef leaves every other reference count unchanged. -/
theorem bumpRef_refCount_other (ctxs : List PromiseImageCallbackContext) (cid j : Nat)
    (h : cid ≠ j) :
    ((bumpRef ctxs cid).getD j dfltCtx).refCount = (ctxs.getD j dfltCtx).refCount := by
  rw [bumpRef, getD_set_neq _ _ _ _ _ h]

/-- Folding bumpRef preserves the store size. -/
theorem foldBump_length :
    ∀ (cids : List Nat) (ctxs : List PromiseImageCallbackContext),
      (cids.foldl bumpRef ctxs).length = ctxs.length
  | [], _ => rfl
  | c :: rest, ctxs => by
    simp only [List.foldl_cons]
    rw [foldBump_length rest (bumpRef ctxs c), length_bumpRef]

/-- Folding bumpRef never changes a backend texture. -/
theorem foldBump_tex :
    ∀ (cids : List Nat) (ctxs : List PromiseImageCallbackContext) (j : Nat),
      ((cids.foldl bumpRef ctxs).getD j dfltCtx).backendTexture =
        (ctxs.getD j dfltCtx).backendTexture
  | [], _, _ => rfl
  | c :: rest, ctxs, j => by
    simp only [List.foldl_cons]
    rw [foldBump_tex rest (bumpRef ctxs c) j, bumpRef_tex]

/-- Folding bumpRef leaves the counts of untargeted contexts unchanged. -/
theorem foldBump_refCount_notmem :
    ∀ (cids : List Nat) (ctxs : List PromiseImageCallbackContext) (j : Nat),
      j ∉ cids →
      ((cids.foldl bumpRef ctxs).getD j dfltCtx).refCount =
        (ctxs.getD j dfltCtx).refCount
  | [], _, _, _ => rfl
  | c :: rest, ctxs, j, h => by
    simp only [List.foldl_cons]
    have hcj : c ≠ j := fun hc => h (hc ▸ List.mem_cons_self c rest)
    rw [foldBump_refCount_notmem rest (bumpRef ctxs c) j
        (fun hj => h (List.mem_cons_of_mem c hj)),
      bumpRef_refCount_other ctxs c j hcj]

/-- Folding bumpRef over distinct in-range ids increments each targeted count
exactly once. -/
theorem foldBump_refCount_mem :
    ∀ (cids : List Nat) (ctxs : List PromiseImageCallbackContext) (c : Nat),
      cids.Nodup → c ∈ cids → c < ctxs.length →
      ((cids.foldl bumpRef ctxs).getD c dfltCtx).refCount =
        (ctxs.getD c dfltCtx).refCount + 1
  | [], _, c, _, hmem, _ => absurd hmem (List.not_mem_nil c)
  | a :: rest, ctxs, c, hnodup, hmem, hlt => by
    simp only [List.foldl_cons]
    rcases List.mem_cons.mp hmem with rfl | hmem'
    · have hnot : c ∉ rest := (List.nodup_cons.mp hnodup).1
      rw [foldBump_refCount_notmem rest (bumpRef ctxs c) c hnot,
        bumpRef_refCount_self ctxs c hlt]
    · have ha : a ≠ c := by
        rintro rfl
        exact (List.nodup_cons.mp hnodup).1 hmem'
      rw [foldBump_refCount_mem rest (bumpRef ctxs a) c (List.nodup_cons.mp hnodup).2
          hmem' (by rw [length_bumpRef]; exact hlt),
        bumpRef_refCount_other ctxs a c ha]

/-- Resolution never changes which texture a context slot reaches. -/
theorem ctxTextureAt_fold (st : HelperState) (cids : List Nat) (n : Nat)
    (e : PromiseImageInfo) (j : Nat) :
    ctxTextureAt ⟨st.fImageInfo, cids.foldl bumpRef st.ctxStore, n⟩ e j =
      ctxTextureAt st e j := by
  unfold ctxTextureAt
  cases hc : e.callbackContexts.getD j none with
  | none => rfl
  | some cid => exact foldBump_tex cids st.ctxStore cid

/-- reinflateSKP over a single-token stream is that token's resolution. -/
theorem reinflateSKP_single (st : HelperState) (r : Nat) (t : Int) :
    reinflateSKP st r [t] =
      (PromiseImageCreator st r t []).map fun res => (res.1, res.2.1, [res.2.2]) := by
  cases h : PromiseImageCreator st r t [] with
  | none => simp [reinflateSKP, List.foldlM, h]
  | some res => simp [reinflateSKP, List.foldlM, h]

/-- Per-entry resolution of a valid-texture entry: a fresh promise image is
minted, appended to the output list, and one reference is taken on each of the
entry's plane contexts. -/
theorem resolve_promise_entry (st : HelperState) (idx : Nat) (e : PromiseImageInfo)
    (cids : List Nat) (r : Nat) (out : List MintedImage)
    (hget : st.fImageInfo.getD idx dfltPIE = e)
    (hidx : e.index = idx)
    (htex : (ctxTextureAt st e 0).isSome = true)
    (hcids : planeCtxIds e = some cids) :
    ∃ img : MintedImage,
      resolveEntryAt st r idx out =
        some ({ st with
                  ctxStore := cids.foldl bumpRef st.ctxStore,
                  nextImageId := st.nextImageId + 1 }, out ++ [img], img) ∧
      img.objId = st.nextImageId ∧ img.mintedCtxIds = cids := by
  obtain ⟨t0, ht0⟩ := Option.isSome_iff_exists.mp htex
  simp only [resolveEntryAt]
  rw [hget, ht0]
  dsimp only
  rw [hidx, if_pos rfl]
  cases hym : e.yuvMeta with
  | some meta =>
    simp only [planeCtxIds, hym] at hcids
    dsimp only
    by_cases hv2 : areValidIndices meta.1 = true
    · rw [if_pos hv2] at hcids
      rw [if_pos hv2, hcids]
      dsimp only
      exact ⟨_, rfl, rfl, rfl⟩
    · rw [if_neg hv2] at hcids
      exact Option.noConfusion hcids
  | none =>
    simp only [planeCtxIds, hym] at hcids
    dsimp only
    cases hc0 : e.callbackContexts.getD 0 none with
    | none =>
      rw [hc0] at hcids
      exact Option.noConfusion hcids
    | some c =>
      rw [hc0] at hcids
      simp only [Option.map_some', Option.some.injEq] at hcids
      subst hcids
      dsimp only
      exact ⟨_, rfl, rfl, rfl⟩

/-- One whole reinflate call over the single-token stream of a valid-texture
entry. -/
theorem resolve_promise_step (st : HelperState) (idx : Nat) (e : PromiseImageInfo)
    (cids : List Nat) (r : Nat)
    (hget : st.fImageInfo.getD idx dfltPIE = e)
    (hlt : idx < st.fImageInfo.length)
    (hidx : e.index = idx)
    (htex : (ctxTextureAt st e 0).isSome = true)
    (hcids : planeCtxIds e = some cids) :
    ∃ img : MintedImage,
      reinflateSKP st r [(idx : Int)] =
        some ({ st with
                  ctxStore := cids.foldl bumpRef st.ctxStore,
                  nextImageId := st.nextImageId + 1 }, [img], [img]) ∧
      img.objId = st.nextImageId ∧ img.mintedCtxIds = cids := by
  have hvalid : isValidIDAt st.fImageInfo.length ((idx : Nat) : Int) = true := by
    simp only [isValidIDAt, decide_eq_true_eq]
    exact ⟨Int.ofNat_nonneg idx, by exact_mod_cast hlt⟩
  obtain ⟨img, hentry, hobj, hctx⟩ :=
    resolve_promise_entry st idx e cids r [] hget hidx htex hcids
  refine ⟨img, ?_, hobj, hctx⟩
  rw [reinflateSKP_single]
  unfold PromiseImageCreator
  rw [if_pos hvalid, Int.toNat_natCast, hentry]
  rfl

/-- M reinflate calls over the single-token stream of a valid-texture entry:
the catalog entries are untouched, M fresh pairwise-distinct images are
minted, each referencing the entry's plane contexts, and each targeted
reference count grows by exactly M. -/
theorem reinflateMany_promise (idx : Nat) (e : PromiseImageInfo) (cids : List Nat)
    (hidx : e.index = idx) (hnodup : cids.Nodup) :
    ∀ (recorders : List Nat) (st : HelperState),
      st.fImageInfo.getD idx dfltPIE = e →
      idx < st.fImageInfo.length →
      (ctxTextureAt st e 0).isSome = true →
      planeCtxIds e = some cids →
      (∀ c ∈ cids, c < st.ctxStore.length) →
      ∃ st' imgs,
        reinflateMany st [(idx : Int)] recorders = some (st', imgs) ∧
        st'.fImageInfo = st.fImageInfo ∧
        st'.ctxStore.length = st.ctxStore.length ∧
        st'.nextImageId = st.nextImageId + recorders.length ∧
        imgs.map MintedImage.objId = List.range' st.nextImageId recorders.length ∧
        (∀ im ∈ imgs, im.mintedCtxIds = cids) ∧
        (∀ j, (st'.ctxStore.getD j dfltCtx).backendTexture =
          (st.ctxStore.getD j dfltCtx).backendTexture) ∧
        (∀ c ∈ cids, (st'.ctxStore.getD c dfltCtx).refCount =
          (st.ctxStore.getD c dfltCtx).refCount + recorders.length)
  | [], st, _, _, _, _, _ => by
    refine ⟨st, [], rfl, rfl, rfl, rfl, by simp, by simp, fun j => rfl, fun c _ => by simp⟩
  | r :: rs, st, hget, hlt, htex, hcids, hstore => by
    obtain ⟨img, hskp, hobj, hctx⟩ :=
      resolve_promise_step st idx e cids r hget hlt hidx htex hcids
    obtain ⟨st', imgs', hmany, hfi, hlen, hnid, hmap, hcids', htexs, hrefs⟩ :=
      reinflateMany_promise idx e cids hidx hnodup rs
        { st with
          ctxStore := cids.foldl bumpRef st.ctxStore,
          nextImageId := st.nextImageId + 1 }
        hget hlt (by rw [ctxTextureAt_fold st cids (st.nextImageId + 1) e 0]; exact htex)
        hcids
        (fun c hc => by rw [foldBump_length]; exact hstore c hc)
    refine ⟨st', img :: imgs', ?_, ?_, ?_, ?_, ?_, ?_, ?_, ?_⟩
    · simp only [reinflateMany, hskp, hmany]
      rfl
    · exact hfi
    · rw [hlen, foldBump_length]
    · rw [hnid]
      simp only [List.length_cons]
      omega
    · simp only [List.map_cons, hobj, hmap, List.length_cons]
      rw [List.range'_succ]
    · intro im him
      rcases List.mem_cons.mp him with rfl | him'
      · exact hctx
      · exact hcids' im him'
    · intro j
      rw [htexs j, foldBump_tex]
    · intro c hc
      rw [hrefs c hc, foldBump_refCount_mem cids st.ctxStore c hnodup hc (hstore c hc),
        List.length_cons]
      omega

/-- Claim C5: for a catalog entry with valid textures, M independent reinflate
calls over the same byte stream mint M distinct promise images, all
referencing the same plane contexts, and each targeted context's reference
count after the M calls equals its value before them plus M. -/
theorem claim_C5 (st : HelperState) (idx : Nat) (e : PromiseImageInfo)
    (cids : List Nat) (recorders : List Nat)
    (hM : 1 ≤ recorders.length)
    (hget : st.fImageInfo.getD idx dfltPIE = e)
    (hlt : idx < st.fImageInfo.length)
    (hidx : e.index = idx)
    (htex : (ctxTextureAt st e 0).isSome = true)
    (hcids : planeCtxIds e = some cids)
    (hnodup : cids.Nodup)
    (hstore : ∀ c ∈ cids, c < st.ctxStore.length) :
    ∃ st' imgs,
      reinflateMany st [(idx : Int)] recorders = some (st', imgs) ∧
      imgs.length = recorders.length ∧
      imgs.Nodup ∧
      (∀ im ∈ imgs, im.mintedCtxIds = cids) ∧
      (∀ c ∈ cids, (st'.ctxStore.getD c dfltCtx).refCount =
        (st.ctxStore.getD c dfltCtx).refCount + recorders.length) := by
  obtain ⟨st', imgs, hmany, -, -, -, hmap, hcids', -, hrefs⟩ :=
    reinflateMany_promise idx e cids hidx hnodup recorders st hget hlt htex hcids hstore
  refine ⟨st', imgs, hmany, ?_, ?_, hcids', hrefs⟩
  · have hl := congrArg List.length hmap
    simpa using hl
  · have hnd : (imgs.map MintedImage.objId).Nodup := by
      rw [hmap]
      exact List.nodup_range' _ _
    exact List.Nodup.of_map MintedImage.objId hnd

/-- Witness for C5: two reinflate calls against a one-entry catalog with a
valid texture. -/
theorem claim_C5_witness :
    ∃ st' imgs,
      reinflateMany wReadyState [(0 : Int)] [10, 11] = some (st', imgs) ∧
      imgs.length = ([10, 11] : List Nat).length ∧
      imgs.Nodup ∧
      (∀ im ∈ imgs, im.mintedCtxIds = [0]) ∧
      (∀ c ∈ ([0] : List Nat), (st'.ctxStore.getD c dfltCtx).refCount =
        (wReadyState.ctxStore.getD c dfltCtx).refCount + ([10, 11] : List Nat).length) :=
  claim_C5 wReadyState 0 wReadyEntry [0] [10, 11] (by decide) (by decide) (by decide)
    rfl (by decide) (by decide) (by decide) (by decide)

end Skia
